import Mathlib

/-!
Verification of the metric-derivation and scoring pipeline of screen_v2.py.

Scalar per-ticker computations are modelled over `PyVal`, a shallow embedding
of the Python float-or-missing values that flow through the script: a value is
either Python None, a float NaN, an infinity, or a (finite) number, with
numbers idealised as exact rationals.  Column-level computations (z-scoring,
rescaling, sub-score aggregation) are modelled over lists of `Option ℚ`, with
`Option.none` standing for NaN (a DataFrame float column stores None as NaN).
-/

/-- A Python value as it appears in the numeric code paths of screen_v2.py:
None, float NaN, an infinity, or a finite number (idealised as an exact
rational; float rounding is not modelled). -/
inductive PyVal where
  | none
  | nan
  | pinf
  | ninf
  | num (q : ℚ)
deriving DecidableEq

/-- Python truthiness of a `PyVal`: None and 0 are falsy; NaN and infinities
are truthy (they are nonzero floats). -/
def PyVal.truthy : PyVal → Bool
  | .none => false
  | .num q => decide (q ≠ 0)
  | _ => true

/-- pd.isna: true exactly on None and NaN (infinities are not na). -/
def PyVal.isna : PyVal → Bool
  | .none => true
  | .nan => true
  | _ => false

/-- The Python idiom `x or 0`: if x is falsy the result is 0, else x itself.
Note NaN is truthy, so `nan or 0` is NaN — the idiom replaces only None and 0,
never the missing-data sentinel NaN. -/
def orZero (v : PyVal) : PyVal :=
  if v.truthy then v else .num 0

/-- Float negation.  None would raise a TypeError in Python; the call sites
modelled here never negate None, so it is mapped to NaN. -/
def PyVal.neg : PyVal → PyVal
  | .none => .nan
  | .nan => .nan
  | .pinf => .ninf
  | .ninf => .pinf
  | .num q => .num (-q)

/-- Float addition (IEEE semantics for NaN and infinities).  None operands
would raise a TypeError in Python and are unreachable at the modelled call
sites; they are mapped to NaN. -/
def PyVal.add : PyVal → PyVal → PyVal
  | .none, _ => .nan
  | _, .none => .nan
  | .nan, _ => .nan
  | _, .nan => .nan
  | .pinf, .ninf => .nan
  | .ninf, .pinf => .nan
  | .pinf, _ => .pinf
  | _, .pinf => .pinf
  | .ninf, _ => .ninf
  | _, .ninf => .ninf
  | .num a, .num b => .num (a + b)

/-- Float subtraction, as addition of the negation. -/
def PyVal.sub (a b : PyVal) : PyVal := a.add b.neg

/-- Float multiplication (IEEE semantics: 0 times an infinity is NaN).  None
operands are unreachable at the modelled call sites and mapped to NaN. -/
def PyVal.mul : PyVal → PyVal → PyVal
  | .none, _ => .nan
  | _, .none => .nan
  | .nan, _ => .nan
  | _, .nan => .nan
  | .pinf, .pinf => .pinf
  | .pinf, .ninf => .ninf
  | .ninf, .pinf => .ninf
  | .ninf, .ninf => .pinf
  | .pinf, .num b => if 0 < b then .pinf else if b < 0 then .ninf else .nan
  | .num a, .pinf => if 0 < a then .pinf else if a < 0 then .ninf else .nan
  | .ninf, .num b => if 0 < b then .ninf else if b < 0 then .pinf else .nan
  | .num a, .ninf => if 0 < a then .ninf else if a < 0 then .pinf else .nan
  | .num a, .num b => .num (a * b)

/-- Raw Python float division a / b.  Division by the float 0 raises a
ZeroDivisionError in Python; every modelled call site guards against a zero
divisor, so that case is mapped to NaN.  None operands are likewise
unreachable and mapped to NaN. -/
def PyVal.div : PyVal → PyVal → PyVal
  | .none, _ => .nan
  | _, .none => .nan
  | .nan, _ => .nan
  | _, .nan => .nan
  | .pinf, .pinf => .nan
  | .pinf, .ninf => .nan
  | .ninf, .pinf => .nan
  | .ninf, .ninf => .nan
  | .pinf, .num b => if b = 0 then .nan else if 0 < b then .pinf else .ninf
  | .ninf, .num b => if b = 0 then .nan else if 0 < b then .ninf else .pinf
  | .num _, .pinf => .num 0
  | .num _, .ninf => .num 0
  | .num a, .num b => if b = 0 then .nan else .num (a / b)

/-- Float strict comparison a < b: any comparison involving NaN is false.
Comparisons with None raise in Python and are unreachable; mapped to false. -/
def PyVal.lt : PyVal → PyVal → Bool
  | .nan, _ => false
  | _, .nan => false
  | .none, _ => false
  | _, .none => false
  | .num a, .num b => decide (a < b)
  | .num _, .pinf => true
  | .num _, .ninf => false
  | .pinf, _ => false
  | .ninf, .ninf => false
  | .ninf, _ => true

/-- Float non-strict comparison a <= b: false when NaN is involved. -/
def PyVal.le : PyVal → PyVal → Bool
  | .nan, _ => false
  | _, .nan => false
  | .none, _ => false
  | _, .none => false
  | .num a, .num b => decide (a ≤ b)
  | .num _, .pinf => true
  | .num _, .ninf => false
  | .pinf, .pinf => true
  | .pinf, _ => false
  | .ninf, _ => true

/-- safe_div from screen_v2.py lines 37-43:
converts both operands to float (a None operand fails the conversion, the
exception is caught, and np.nan is returned), returns np.nan when b == 0 or
b is NaN, and otherwise returns a / b.  Note only b is screened: a NaN a
flows through the division (yielding NaN), and infinite operands are not
screened at all. -/
def safe_div (a b : PyVal) : PyVal :=
  if a = .none ∨ b = .none then .nan
  else if b = .num 0 ∨ b = .nan then .nan
  else a.div b

/-- invested_cap from screen_v2.py lines 207-212: returns np.nan when Total
Assets and Current Liabilities are BOTH na (the guard is all(pd.isna([ta,cl])));
otherwise computes (ta - cl) - ((cash or 0) + (sti or 0)) - ((gw or 0) + (inta or 0))
with float arithmetic, so a NaN in any used operand propagates to NaN. -/
def invested_cap (ta cl cash sti gw inta : PyVal) : PyVal :=
  if ta.isna ∧ cl.isna then .nan
  else ((ta.sub cl).sub ((orZero cash).add (orZero sti))).sub
    ((orZero gw).add (orZero inta))

/-- One annual balance-sheet period as consumed by the invested-capital code
(lines 187-205).  A field is `Option.none` when the balance-sheet row is
absent; `some v` is the period's value (itself possibly NaN). -/
structure BalanceSheetPeriod where
  totalAssets : Option PyVal
  currentLiabilities : Option PyVal
  cash : Option PyVal
  shortTermInvestments : Option PyVal
  goodwill : Option PyVal
  intangibles : Option PyVal

/-- Field extraction for one period, lines 187-205.  The plain lookups of
Total Assets and Total Current Liabilities (lines 188-189) would succeed when
those rows are present, but line 190 then evaluates bs_.loc.get(...): a pandas
.loc indexer has no get attribute, so this raises AttributeError on every run,
regardless of the balance-sheet data; the enclosing try/except catches it and
line 195 sets ALL six inputs to np.nan.  The prior period (lines 197-205)
fails the same way at line 200.  The extraction therefore never depends on the
balance sheet: every input is NaN for every period.  (The defaults written at
lines 190-193 — np.nan for Cash, 0 for Short Term Investments, Goodwill and
Intangible Assets — never take effect.) -/
def bs_inputs (_ : BalanceSheetPeriod) :
    PyVal × PyVal × PyVal × PyVal × PyVal × PyVal :=
  (.nan, .nan, .nan, .nan, .nan, .nan)

/-- Invested capital of one annual period: extraction composed with
invested_cap (lines 214-215). -/
def ic_period (b : BalanceSheetPeriod) : PyVal :=
  match bs_inputs b with
  | (ta, cl, cash, sti, gw, inta) => invested_cap ta cl cash sti gw inta

/-- TTM free cash flow, line 170: fcf = (ocf or 0) - (capex or 0).  The
operands are the quarterly (preferred) or annual operating-cash-flow and
capital-expenditure lookups; when both lookups fail the except branch sets
both to np.nan (line 169). -/
def fcf (ocf capex : PyVal) : PyVal :=
  (orZero ocf).sub (orZero capex)

/-- cagr from lines 45-51, as a relation between the inputs and the returned
value: np.nan when first <= 0 or years <= 0; otherwise
(last/first) ** (1/years) - 1.  The root of a rational is irrational in
general and a float power cannot be represented exactly, so the result is
characterised relationally: res is the number v with (1+v)^years = last/first
and 1+v > 0 (the principal real root).  When that root is irrational the
relation has no rational witness; every claim instantiates it at inputs whose
root is rational.  A negative last would make Python produce a complex number;
no claim reaches that case and the relation leaves it unconstrained
(unsatisfiable). -/
def IsCagr (first last : ℚ) (years : ℕ) (res : PyVal) : Prop :=
  if first ≤ 0 ∨ years = 0 then res = PyVal.nan
  else if last < 0 then False
  else if last = 0 then res = PyVal.num (-1)
  else ∃ v : ℚ, res = PyVal.num v ∧ 0 < 1 + v ∧ (1 + v) ^ years = last / first

/-- The revenue-CAGR fallback, lines 241-254.  revHist is the series
is_.loc["Total Revenue"].iloc[:4].dropna(): the up-to-4 most recent annual
Total Revenue values, most recent first, with missing entries dropped.  With
n = len(revHist) >= 2 the code sets years = n - 1 and calls
cagr(rev_hist.iloc[-1*years], rev_hist.iloc[0], years); a negative iloc
position -years addresses the element at position n - years. -/
def IsGrowthRev (revHist : List ℚ) (res : PyVal) : Prop :=
  if 2 ≤ revHist.length then
    IsCagr (revHist.getD (revHist.length - (revHist.length - 1)) 0)
      (revHist.getD 0 0) (revHist.length - 1) res
  else res = PyVal.nan

/-- The growth computation the spec describes for the fallback: revenue CAGR
from the EARLIEST available observation (the last element of the most-recent-
first series) to the latest available observation, with years = count - 1.
Stated for comparison with `IsGrowthRev`, the computation the code performs. -/
def IsGrowthRevSpec (revHist : List ℚ) (res : PyVal) : Prop :=
  if 2 ≤ revHist.length then
    IsCagr (revHist.getD (revHist.length - 1) 0) (revHist.getD 0 0)
      (revHist.length - 1) res
  else res = PyVal.nan

/-- Lines 266-268: a growth value that is a number <= 0 is replaced by np.nan
(the identity checks g is not np.nan / g is not None skip the sentinel values,
and NaN fails every comparison). -/
def growth_filter (g : PyVal) : PyVal :=
  if ¬ g.isna ∧ PyVal.le g (.num 0) then .nan else g

/-- Lines 256-257 and 266-268 combined: prefer the external earningsGrowth
estimate when it is neither None nor NaN, else use the revenue-CAGR fallback;
then replace None/NaN by np.nan and a non-positive number by np.nan. -/
def growth_pick (earningsGrowth growth_rev : PyVal) : PyVal :=
  let growth := if earningsGrowth.isna then growth_rev else earningsGrowth
  growth_filter (if growth.isna then PyVal.nan else growth)

/-- The full growth proxy, lines 239-268: g is a possible value of the growth
proxy for a ticker with the given external estimate and annual Total Revenue
row (most recent first, entry Option.none when missing). -/
def IsGrowthProxy (earningsGrowth : PyVal) (totalRevenueRow : List (Option ℚ))
    (g : PyVal) : Prop :=
  ∃ growth_rev, IsGrowthRev ((totalRevenueRow.take 4).filterMap id) growth_rev ∧
    g = growth_pick earningsGrowth growth_rev

/-- PEG, lines 270-276: np.nan unless pe_eff and g are both truthy (None and
the number 0 are falsy; NaN is truthy, but then the division yields NaN); if
g < 1 (growth expressed as a fraction) divide pe_eff by g*100, else by g. -/
def PEG (pe_eff g : PyVal) : PyVal :=
  if pe_eff.truthy ∧ g.truthy then
    if PyVal.lt g (.num 1) then pe_eff.div (g.mul (.num 100))
    else pe_eff.div g
  else .nan

/-- div_pct, line 278: convert a truthy dividend yield below 1 from a fraction
to percentage points; otherwise pass the value through unchanged (None stays
None, NaN stays NaN, a yield >= 1 is taken as already a percentage). -/
def div_pct (div_y : PyVal) : PyVal :=
  if div_y.truthy ∧ PyVal.lt div_y (.num 1) then (orZero div_y).mul (.num 100)
  else div_y

/-- PEGY, lines 279-283: None unless pe_eff and g are both non-na; the
denominator is g (scaled to percentage points when truthy and < 1) plus
(div_pct or 0); the quotient is taken with safe_div. -/
def PEGY (pe_eff g div_y : PyVal) : PyVal :=
  if ¬ pe_eff.isna ∧ ¬ g.isna then
    let denom0 := if g.truthy ∧ PyVal.lt g (.num 1) then g.mul (.num 100) else g
    safe_div pe_eff (denom0.add (orZero (div_pct div_y)))
  else .none

/-- p_to_fcf, line 294: safe_div(mcap, fcf) when fcf is non-na and > 0, else
np.nan. -/
def p_to_fcf (mcap fcfV : PyVal) : PyVal :=
  if ¬ fcfV.isna ∧ PyVal.lt (.num 0) fcfV then safe_div mcap fcfV else .nan

/-- The ten-year-yield resolution, lines 105-112: if the override mapping
supplies ten_year_yield, that value is used and the provider branch is never
entered; otherwise the provider's TNX quote (a printed percentage) is divided
by 100; if the provider returns nothing the value is np.nan (here:
Option.none). -/
def resolve_ten_year (ovr provider : Option ℚ) : Option ℚ :=
  match ovr with
  | some v => some v
  | Option.none =>
      match provider with
      | some t => some (t / 100)
      | Option.none => Option.none

/-- One output row as far as the final sort is concerned: its ticker and its
meta-score (Option.none = NaN). -/
structure OutRow where
  ticker : String
  meta : Option ℚ
deriving DecidableEq

/-- Whether a row with meta-score x must be placed strictly before one with
meta-score y by df.sort_values("meta_score", ascending=False): strictly larger
scores first, NaN scores last (the default na_position).  Rows with equal
scores (or both NaN) are not ordered by this relation. -/
def metaBefore (x y : Option ℚ) : Bool :=
  match x, y with
  | some a, some b => decide (b < a)
  | some _, Option.none => true
  | Option.none, _ => false

/-- Stable insertion of a row into an already-sorted list: the row is placed
after every element that must strictly precede it, hence before any element
with an equal key — ties keep input order. -/
def insertRow (r : OutRow) : List OutRow → List OutRow
  | [] => [r]
  | h :: t => if metaBefore h.meta r.meta then h :: insertRow r t else r :: h :: t

/-- df[out_cols].sort_values("meta_score", ascending=False) from line 427,
modelled as a stable sort on the meta-score alone (descending, NaN last).  The
code passes no secondary key; ties are left to the underlying sort.  pandas'
descending path reverses, applies an ascending argsort, and reverses again,
and numpy's introsort is insertion sort below its small-array cutoff, so for
the universes considered here ties keep their input order; that is the
behavior modelled.  No tie-break on the ticker exists in the code. -/
def sort_by_meta : List OutRow → List OutRow
  | [] => []
  | r :: rest => insertRow r (sort_by_meta rest)

/-- A two-row universe in which both rows carry the same meta-score and the
tickers arrive in descending order. -/
def c5rows : List OutRow := [⟨"BBB", some 50⟩, ⟨"AAA", some 50⟩]

/-- A DataFrame column across the whole universe: one entry per ticker row,
Option.none standing for NaN. -/
abbrev Column := List (Option ℚ)

/-- The stabilising constant 1e-9 used by zscore and pos_clip. -/
def e9 : ℚ := 1 / 1000000000

/-- NaN-propagating addition of two column entries (pandas series +). -/
def oadd : Option ℚ → Option ℚ → Option ℚ
  | some a, some b => some (a + b)
  | _, _ => Option.none

/-- NaN-propagating scalar multiple of a column entry. -/
def osmul (k : ℚ) (x : Option ℚ) : Option ℚ := x.map (fun v => k * v)

/-- NaN-propagating negation of a column entry. -/
def oneg (x : Option ℚ) : Option ℚ := x.map Neg.neg

/-- np.nanmean of a column: the mean of the defined entries, NaN when there
are none. -/
def nanmean (col : Column) : Option ℚ :=
  match col.filterMap id with
  | [] => Option.none
  | x :: xs => some ((x :: xs).sum / (x :: xs).length)

/-- The population variance of the defined entries of a column (np.nanstd
squared), NaN when there are none. -/
def nanvar (col : Column) : Option ℚ :=
  match nanmean col with
  | Option.none => Option.none
  | some μ =>
      some (((col.filterMap id).map (fun x => (x - μ) ^ 2)).sum /
        (col.filterMap id).length)

/-- σ is the value np.nanstd returns on the column: the nonnegative square
root of `nanvar`.  The square root of a rational is irrational in general, so
zscore takes the standard deviation as a parameter and concrete instances tie
it to the column through this predicate (instances are chosen with
perfect-square variance). -/
def Nanstd (col : Column) (σ : ℚ) : Prop :=
  0 ≤ σ ∧ nanvar col = some (σ ^ 2)

/-- np.nanmin of a column: the least defined entry, NaN when there are none. -/
def nanmin (col : Column) : Option ℚ :=
  match col.filterMap id with
  | [] => Option.none
  | x :: xs => some (xs.foldl min x)

/-- np.nanmax of a column: the greatest defined entry, NaN when there are
none. -/
def nanmax (col : Column) : Option ℚ :=
  match col.filterMap id with
  | [] => Option.none
  | x :: xs => some (xs.foldl max x)

/-- zscore from lines 337-339: (s - nanmean(s)) / (nanstd(s) + 1e-9), entry by
entry; a NaN entry stays NaN, and when every entry is NaN the mean is NaN and
the whole column comes out NaN.  σ is the column's np.nanstd (see `Nanstd`);
every theorem below holds for an arbitrary σ, in particular for the true
standard deviation. -/
def zscore (σ : ℚ) (col : Column) : Column :=
  match nanmean col with
  | Option.none => col.map (fun _ => Option.none)
  | some μ => col.map (Option.map (fun x => (x - μ) / (σ + e9)))

/-- pos_clip from lines 341-342: 100 * (s - nanmin(s)) / (nanmax(s) -
nanmin(s) + 1e-9), entry by entry; NaN entries stay NaN. -/
def pos_clip (col : Column) : Column :=
  match nanmin col, nanmax col with
  | some m, some M => col.map (Option.map (fun x => 100 * (x - m) / (M - m + e9)))
  | _, _ => col.map (fun _ => Option.none)

/-- Pandas series addition of two columns (elementwise, NaN-propagating). -/
def cadd (c d : Column) : Column := List.zipWith oadd c d

/-- Scalar multiple of a column. -/
def csmul (k : ℚ) (c : Column) : Column := c.map (osmul k)

/-- Elementwise negation of a column. -/
def cneg (c : Column) : Column := c.map oneg

/-- The reciprocal-with-stabiliser columns of lines 356-357 and 367:
1 / (series + 1e-9), entry by entry. -/
def inv_col (c : Column) : Column := c.map (Option.map (fun x => 1 / (x + e9)))

/-- One weighted term of a sub-score formula: weight, whether the z-score is
negated (lower-is-better metrics), the column's standard deviation, and the
column itself. -/
structure WTerm where
  w : ℚ
  flipSign : Bool
  sigma : ℚ
  col : Column

/-- The column contributed by one weighted term. -/
def wterm (t : WTerm) : Column :=
  csmul t.w (if t.flipSign then cneg (zscore t.sigma t.col) else zscore t.sigma t.col)

/-- A weighted sum of z-scored columns combined with pandas series addition:
exactly the shape of the five sub-score formulas (no NaN-skipping sum is
involved; + propagates NaN). -/
def wsum : List WTerm → Column
  | [] => []
  | [t] => wterm t
  | t :: ts => cadd (wterm t) (wsum ts)

/-- The raw metric columns of the assembled DataFrame together with the
np.nanstd value of each column that gets z-scored (see `Nanstd`).  Field
m_sensitivity is the macro_sensitivity column of the source. -/
structure ScreenData where
  roic_est : Column
  fcf_margin : Column
  fcf_yield : Column
  ebit_margin : Column
  net_debt : Column
  interest_coverage : Column
  PEG : Column
  PEGY : Column
  growth_proxy : Column
  cash_to_mcap : Column
  p_to_fcf : Column
  shares_chg_3y : Column
  m_sensitivity : Column
  weekly_ac : Column
  vol_clust : Column
  ret_pred : Column
  patent_count : Column
  forward_citations : Column
  rd_to_sales : Column
  s_roic_est : ℚ
  s_fcf_margin : ℚ
  s_fcf_yield : ℚ
  s_ebit_margin : ℚ
  s_net_debt : ℚ
  s_interest_coverage : ℚ
  s_inv_PEG : ℚ
  s_inv_PEGY : ℚ
  s_growth_proxy : ℚ
  s_cash_to_mcap : ℚ
  s_inv_p_to_fcf : ℚ
  s_shares_chg_3y : ℚ
  s_m_sensitivity : ℚ
  s_weekly_ac : ℚ
  s_vol_clust : ℚ
  s_ret_pred : ℚ
  s_patent_count : ℚ
  s_forward_citations : ℚ
  s_rd_to_sales : ℚ

/-- All metric columns have the length of the universe. -/
def SameLen (d : ScreenData) (n : ℕ) : Prop :=
  d.roic_est.length = n ∧ d.fcf_margin.length = n ∧ d.fcf_yield.length = n ∧
  d.ebit_margin.length = n ∧ d.net_debt.length = n ∧
  d.interest_coverage.length = n ∧ d.PEG.length = n ∧ d.PEGY.length = n ∧
  d.growth_proxy.length = n ∧ d.cash_to_mcap.length = n ∧
  d.p_to_fcf.length = n ∧ d.shares_chg_3y.length = n ∧
  d.m_sensitivity.length = n ∧ d.weekly_ac.length = n ∧
  d.vol_clust.length = n ∧ d.ret_pred.length = n ∧ d.patent_count.length = n ∧
  d.forward_citations.length = n ∧ d.rd_to_sales.length = n

/-- inv_PEG of line 356. -/
def inv_PEG (d : ScreenData) : Column := inv_col d.PEG

/-- inv_PEGY of line 357. -/
def inv_PEGY (d : ScreenData) : Column := inv_col d.PEGY

/-- inv_p_to_fcf of line 367 (shared by the Icahn and Soros formulas). -/
def inv_p_to_fcf (d : ScreenData) : Column := inv_col d.p_to_fcf

/-- buffett_raw, lines 345-352. -/
def buffett_raw (d : ScreenData) : Column :=
  wsum [⟨35/100, false, d.s_roic_est, d.roic_est⟩,
    ⟨20/100, false, d.s_fcf_margin, d.fcf_margin⟩,
    ⟨15/100, false, d.s_fcf_yield, d.fcf_yield⟩,
    ⟨15/100, false, d.s_ebit_margin, d.ebit_margin⟩,
    ⟨10/100, true, d.s_net_debt, d.net_debt⟩,
    ⟨5/100, false, d.s_interest_coverage, d.interest_coverage⟩]

/-- lynch_raw, lines 358-363. -/
def lynch_raw (d : ScreenData) : Column :=
  wsum [⟨35/100, false, d.s_inv_PEG, inv_PEG d⟩,
    ⟨25/100, false, d.s_inv_PEGY, inv_PEGY d⟩,
    ⟨25/100, false, d.s_growth_proxy, d.growth_proxy⟩,
    ⟨15/100, true, d.s_net_debt, d.net_debt⟩]

/-- icahn_raw, lines 368-373. -/
def icahn_raw (d : ScreenData) : Column :=
  wsum [⟨35/100, false, d.s_cash_to_mcap, d.cash_to_mcap⟩,
    ⟨35/100, false, d.s_inv_p_to_fcf, inv_p_to_fcf d⟩,
    ⟨20/100, true, d.s_shares_chg_3y, d.shares_chg_3y⟩,
    ⟨10/100, true, d.s_net_debt, d.net_debt⟩]

/-- soros_raw, lines 377-381. -/
def soros_raw (d : ScreenData) : Column :=
  wsum [⟨50/100, false, d.s_inv_p_to_fcf, inv_p_to_fcf d⟩,
    ⟨30/100, false, d.s_m_sensitivity, d.m_sensitivity⟩,
    ⟨20/100, false, d.s_interest_coverage, d.interest_coverage⟩]

/-- simons_raw, lines 385-389. -/
def simons_raw (d : ScreenData) : Column :=
  wsum [⟨34/100, false, d.s_weekly_ac, d.weekly_ac⟩,
    ⟨33/100, false, d.s_vol_clust, d.vol_clust⟩,
    ⟨33/100, false, d.s_ret_pred, d.ret_pred⟩]

/-- ip_z, lines 394-398 (the guard on line 393 is always true: the three IP
columns are always present in the DataFrame, merely NaN when patents.csv is
absent). -/
def ip_z (d : ScreenData) : Column :=
  wsum [⟨50/100, false, d.s_patent_count, d.patent_count⟩,
    ⟨30/100, false, d.s_forward_citations, d.forward_citations⟩,
    ⟨20/100, false, d.s_rd_to_sales, d.rd_to_sales⟩]

/-- buffett_score before the IP boost, line 353. -/
def buffett_score (d : ScreenData) : Column := pos_clip (buffett_raw d)

/-- lynch_score, line 364. -/
def lynch_score (d : ScreenData) : Column := pos_clip (lynch_raw d)

/-- icahn_score, line 374. -/
def icahn_score (d : ScreenData) : Column := pos_clip (icahn_raw d)

/-- soros_score, line 382. -/
def soros_score (d : ScreenData) : Column := pos_clip (soros_raw d)

/-- simons_score before the IP boost, line 390. -/
def simons_score (d : ScreenData) : Column := pos_clip (simons_raw d)

/-- zipWith over three lists, truncating at the shortest. -/
def zip3With (f : α → β → γ → δ) : List α → List β → List γ → List δ
  | a :: as, b :: bs, c :: cs => f a b c :: zip3With f as bs cs
  | _, _, _ => []

/-- One row of np.where(np.isnan(ip_z), score, score*0.9 + pos_clip(ip_z)*0.1):
keep the score where the IP composite is NaN, else blend 0.9/0.1. -/
def blendRow (z s p : Option ℚ) : Option ℚ :=
  match z with
  | Option.none => s
  | some _ => oadd (osmul (9/10) s) (osmul (1/10) p)

/-- The IP-boost blend of lines 399-400, columnwise. -/
def blend (zcol scol pcol : Column) : Column := zip3With blendRow zcol scol pcol

/-- buffett_score after the optional IP boost, line 399. -/
def buffett_score_ip (d : ScreenData) : Column :=
  blend (ip_z d) (buffett_score d) (pos_clip (ip_z d))

/-- simons_score after the optional IP boost, line 400. -/
def simons_score_ip (d : ScreenData) : Column :=
  blend (ip_z d) (simons_score d) (pos_clip (ip_z d))

/-- meta_score, lines 403-409: 0.25*buffett + 0.20*lynch + 0.20*icahn +
0.15*soros + 0.20*simons, with pandas series arithmetic. -/
def meta_score (d : ScreenData) : Column :=
  cadd (csmul (25/100) (buffett_score_ip d))
    (cadd (csmul (20/100) (lynch_score d))
      (cadd (csmul (20/100) (icahn_score d))
        (cadd (csmul (15/100) (soros_score d))
          (csmul (20/100) (simons_score_ip d)))))

/-- A fully populated balance-sheet period: Total Assets 100, Current
Liabilities 20, Cash 5, and Short Term Investments, Goodwill and Intangible
Assets all present with value 0.  The claim's formula gives
(100 - 20) - (5 + 0) - (0 + 0) = 75 for this data. -/
def bC3 : BalanceSheetPeriod :=
  ⟨some (.num 100), some (.num 20), some (.num 5), some (.num 0),
    some (.num 0), some (.num 0)⟩

/-- A two-ticker universe for the sub-score definedness claim: in row 0 the
roic_est entry (and every entry of the four remaining Buffett components) is
defined while the fcf_margin entry is NaN.  The stored standard deviations are
the true np.nanstd values of the corresponding columns (variance 1 for the
columns [1, 3], variance 0 for the column whose only defined entry is 5). -/
def dC1 : ScreenData where
  roic_est := [some 1, some 3]
  fcf_margin := [Option.none, some 5]
  fcf_yield := [some 1, some 3]
  ebit_margin := [some 1, some 3]
  net_debt := [some 1, some 3]
  interest_coverage := [some 1, some 3]
  PEG := [some 1, some 3]
  PEGY := [some 1, some 3]
  growth_proxy := [some 1, some 3]
  cash_to_mcap := [some 1, some 3]
  p_to_fcf := [some 1, some 3]
  shares_chg_3y := [some 1, some 3]
  m_sensitivity := [some 1, some 3]
  weekly_ac := [some 1, some 3]
  vol_clust := [some 1, some 3]
  ret_pred := [some 1, some 3]
  patent_count := [some 1, some 3]
  forward_citations := [some 1, some 3]
  rd_to_sales := [some 1, some 3]
  s_roic_est := 1
  s_fcf_margin := 0
  s_fcf_yield := 1
  s_ebit_margin := 1
  s_net_debt := 1
  s_interest_coverage := 1
  s_inv_PEG := 1
  s_inv_PEGY := 1
  s_growth_proxy := 1
  s_cash_to_mcap := 1
  s_inv_p_to_fcf := 1
  s_shares_chg_3y := 1
  s_m_sensitivity := 1
  s_weekly_ac := 1
  s_vol_clust := 1
  s_ret_pred := 1
  s_patent_count := 1
  s_forward_citations := 1
  s_rd_to_sales := 1

/-- A one-ticker universe in which every metric is defined (all columns are
the singleton [1]), so every sub-score and the meta-score are defined. -/
def dC9 : ScreenData where
  roic_est := [some 1]
  fcf_margin := [some 1]
  fcf_yield := [some 1]
  ebit_margin := [some 1]
  net_debt := [some 1]
  interest_coverage := [some 1]
  PEG := [some 1]
  PEGY := [some 1]
  growth_proxy := [some 1]
  cash_to_mcap := [some 1]
  p_to_fcf := [some 1]
  shares_chg_3y := [some 1]
  m_sensitivity := [some 1]
  weekly_ac := [some 1]
  vol_clust := [some 1]
  ret_pred := [some 1]
  patent_count := [some 1]
  forward_citations := [some 1]
  rd_to_sales := [some 1]
  s_roic_est := 0
  s_fcf_margin := 0
  s_fcf_yield := 0
  s_ebit_margin := 0
  s_net_debt := 0
  s_interest_coverage := 0
  s_inv_PEG := 0
  s_inv_PEGY := 0
  s_growth_proxy := 0
  s_cash_to_mcap := 0
  s_inv_p_to_fcf := 0
  s_shares_chg_3y := 0
  s_m_sensitivity := 0
  s_weekly_ac := 0
  s_vol_clust := 0
  s_ret_pred := 0
  s_patent_count := 0
  s_forward_citations := 0
  s_rd_to_sales := 0

theorem orZero_num (q : ℚ) : orZero (.num q) = .num q := by
  by_cases h : q = 0
  · subst h; simp [orZero, PyVal.truthy]
  · simp [orZero, PyVal.truthy, h]

theorem orZero_none : orZero .none = .num 0 := rfl

theorem orZero_nan : orZero .nan = .nan := rfl

theorem sub_num (a b : ℚ) : (PyVal.num a).sub (.num b) = .num (a - b) := by
  simp [PyVal.sub, PyVal.neg, PyVal.add, sub_eq_add_neg]

theorem add_num (a b : ℚ) : (PyVal.num a).add (.num b) = .num (a + b) := rfl

theorem sub_nan_right (v : PyVal) : v.sub .nan = .nan := by
  cases v <;> rfl

theorem sub_nan_left (v : PyVal) : PyVal.nan.sub v = .nan := by
  cases v <;> rfl

/-- Claim C6 (amended): safe_div is a total function (it never raises); it
returns the undefined sentinel when either operand fails float conversion
(None), when b is zero or NaN, or when a is NaN; for finite numeric operands
with b nonzero it returns exactly a/b.  Infinite operands, however, are NOT
screened to undefined (see the counterexample): the "either operand is not
finite-numeric implies undefined" part of the claim fails for infinities. -/
theorem C6_safe_div_amended (a b : PyVal) (p q : ℚ) :
    safe_div PyVal.none b = PyVal.nan ∧
    safe_div a PyVal.none = PyVal.nan ∧
    safe_div a (PyVal.num 0) = PyVal.nan ∧
    safe_div a PyVal.nan = PyVal.nan ∧
    safe_div PyVal.nan b = PyVal.nan ∧
    safe_div (PyVal.num p) (PyVal.num q) =
      (if q = 0 then PyVal.nan else PyVal.num (p / q)) := by
  refine ⟨by simp [safe_div], by simp [safe_div], ?_, ?_, ?_, ?_⟩
  · cases a <;> simp [safe_div]
  · cases a <;> simp [safe_div]
  · rcases b with _ | _ | _ | _ | q' <;> simp [safe_div, PyVal.div]
  · by_cases h : q = 0
    · subst h; simp [safe_div]
    · simp [safe_div, PyVal.div, h]

/-- Claim C6 counterexample: an infinite operand is not finite-numeric, yet
safe_div does not return the undefined sentinel there: safe_div(+inf, 2) is
+inf and safe_div(3, +inf) is 0, neither of which is NaN. -/
theorem C6_counterexample :
    safe_div PyVal.pinf (PyVal.num 2) = PyVal.pinf ∧
    safe_div (PyVal.num 3) PyVal.pinf = PyVal.num 0 ∧
    PyVal.pinf ≠ PyVal.nan ∧ PyVal.num (0 : ℚ) ≠ PyVal.nan := by
  refine ⟨?_, ?_, by simp, by simp⟩
  · show (if PyVal.pinf = PyVal.none ∨ PyVal.num 2 = PyVal.none then PyVal.nan
      else if PyVal.num 2 = PyVal.num 0 ∨ PyVal.num 2 = PyVal.nan then PyVal.nan
      else PyVal.pinf.div (PyVal.num 2)) = PyVal.pinf
    rw [if_neg (by simp), if_neg (not_or.mpr ⟨by norm_num, by simp⟩)]
    norm_num [PyVal.div]
  · show (if PyVal.num 3 = PyVal.none ∨ PyVal.pinf = PyVal.none then PyVal.nan
      else if PyVal.pinf = PyVal.num 0 ∨ PyVal.pinf = PyVal.nan then PyVal.nan
      else (PyVal.num 3).div PyVal.pinf) = PyVal.num 0
    rw [if_neg (by simp), if_neg (by simp)]
    rfl

/-- Claim C7: when an override value is present the resolved ten-year yield
is exactly the override, independently of whatever the provider would return
(the provider is not consulted); with no override it is the provider TNX
value divided by 100; with neither it is the undefined sentinel. -/
theorem C7_resolve_ten_year (v t : ℚ) (p p' : Option ℚ) :
    resolve_ten_year (some v) p = some v ∧
    resolve_ten_year (some v) p = resolve_ten_year (some v) p' ∧
    resolve_ten_year Option.none (some t) = some (t / 100) ∧
    resolve_ten_year Option.none Option.none = Option.none :=
  ⟨rfl, rfl, rfl, rfl⟩

/-- Claim C10: p_to_fcf is the undefined sentinel whenever TTM free cash flow
is NaN (or None, or -inf) and in the non-positive numeric case; for a positive
numeric FCF and numeric market cap it is market cap divided by FCF. -/
theorem C10_p_to_fcf (m : PyVal) (a q : ℚ) :
    p_to_fcf m PyVal.nan = PyVal.nan ∧
    p_to_fcf m PyVal.none = PyVal.nan ∧
    p_to_fcf m PyVal.ninf = PyVal.nan ∧
    p_to_fcf (PyVal.num a) (PyVal.num q) =
      (if 0 < q then PyVal.num (a / q) else PyVal.nan) := by
  refine ⟨by simp [p_to_fcf, PyVal.isna], by simp [p_to_fcf, PyVal.isna],
    by simp [p_to_fcf, PyVal.isna, PyVal.lt], ?_⟩
  by_cases hq : 0 < q
  · have h0 : ¬ q = 0 := by positivity
    simp [p_to_fcf, PyVal.isna, PyVal.lt, hq, safe_div, PyVal.div, h0]
  · simp [p_to_fcf, PyVal.isna, PyVal.lt, hq]

/-- Claim C10 witness: at market cap 10 and FCF 4 the ratio is 10/4, and at
FCF -1 or NaN the metric is undefined. -/
theorem C10_witness :
    p_to_fcf (PyVal.num 10) (PyVal.num 4) = PyVal.num (10 / 4) ∧
    p_to_fcf (PyVal.num 10) (PyVal.num (-1)) = PyVal.nan ∧
    p_to_fcf (PyVal.num 10) PyVal.nan = PyVal.nan := by
  refine ⟨?_, ?_, (C10_p_to_fcf (PyVal.num 10) 10 4).1⟩
  · have h := (C10_p_to_fcf (PyVal.num 10) 10 4).2.2.2
    rwa [if_pos (by norm_num)] at h
  · have h := (C10_p_to_fcf (PyVal.num 10) 10 (-1)).2.2.2
    rwa [if_neg (by norm_num)] at h

/-- Claim C4 counterexample: with the operating-cash-flow operand missing
(NaN) and capital expenditure 5, the claim says FCF = 0 - 5 = -5; the code
yields NaN, because NaN is truthy and survives the `or 0` guard, so the
missing operand is NOT treated as zero and FCF IS undefined. -/
theorem C4_counterexample :
    fcf PyVal.nan (PyVal.num 5) = PyVal.nan ∧
    fcf PyVal.nan (PyVal.num 5) ≠ PyVal.num (0 - 5) := by
  constructor
  · simp [fcf, orZero_nan, orZero_num, sub_nan_left]
  · simp [fcf, orZero_nan, orZero_num, sub_nan_left]

/-- Claim C4 (amended): fcf subtracts the two operands after an `or 0` guard
that replaces only a Python None (or a zero) by 0; the NaN sentinel survives
the guard and propagates, so FCF is numeric when both operands are numeric,
treats a None operand as zero, and is NaN whenever either operand is NaN (in
particular in the both-lookups-failed branch, where both operands are NaN). -/
theorem C4_fcf_amended (a b : ℚ) (v : PyVal) :
    fcf (PyVal.num a) (PyVal.num b) = PyVal.num (a - b) ∧
    fcf PyVal.none (PyVal.num b) = PyVal.num (0 - b) ∧
    fcf (PyVal.num a) PyVal.none = PyVal.num (a - 0) ∧
    fcf PyVal.nan v = PyVal.nan ∧
    fcf v PyVal.nan = PyVal.nan := by
  refine ⟨?_, ?_, ?_, ?_, ?_⟩
  · simp [fcf, orZero_num, sub_num]
  · simp [fcf, orZero_none, orZero_num, sub_num]
  · simp [fcf, orZero_none, orZero_num, sub_num]
  · cases v <;> simp [fcf, orZero, PyVal.truthy, sub_nan_left]
  · cases v <;> simp [fcf, orZero, PyVal.truthy, sub_nan_right]

/-- Claim C3 counterexample: on a FULLY populated balance-sheet period (every
row present and numeric) the claim says invested capital is the defined value
(100 - 20) - (5 + 0) - (0 + 0) = 75; the code's extraction raises
AttributeError at bs_.loc.get (pandas .loc indexers have no get method), the
except sets all six inputs to np.nan, and the period's invested capital is
NaN. -/
theorem C3_counterexample :
    ic_period bC3 = PyVal.nan ∧ PyVal.nan ≠ PyVal.num 75 := by
  constructor
  · simp [ic_period, bs_inputs, invested_cap, PyVal.isna]
  · simp

/-- Claim C3 (amended): the invested_cap function itself (lines 207-212)
computes (TA - CL) - ((cash or 0) + (sti or 0)) - ((gw or 0) + (inta or 0))
on numeric inputs and is NaN when both TA and CL are na; but the per-period
field extraction never reaches it with data: bs_.loc.get does not exist on
pandas .loc indexers, every period's try block raises AttributeError, the
except sets all six inputs to np.nan, and the period's invested capital is
ALWAYS undefined — for any balance-sheet content.  In particular a missing
Total Assets or Current Liabilities leaves it undefined (vacuously), and no
optional component ever contributes zero. -/
theorem C3_invested_cap_amended (ta cl c s g i : ℚ) (b : BalanceSheetPeriod) :
    ic_period b = PyVal.nan ∧
    invested_cap (.num ta) (.num cl) (.num c) (.num s) (.num g) (.num i) =
      PyVal.num (ta - cl - (c + s) - (g + i)) ∧
    invested_cap PyVal.nan PyVal.nan PyVal.nan PyVal.nan PyVal.nan PyVal.nan =
      PyVal.nan := by
  refine ⟨?_, ?_, ?_⟩
  · simp [ic_period, bs_inputs, invested_cap, PyVal.isna]
  · simp [invested_cap, PyVal.isna, orZero_num, sub_num, add_num]
  · simp [invested_cap, PyVal.isna]

/-- Claim C2: with no external growth estimate and the three annual Total
Revenue observations 400, 100, 25 (most recent first), the code's growth proxy
is 1.0 — the CAGR over 2 years from the SECOND observation (100, addressed by
iloc[-years] = iloc[1]) to the latest (400) — whereas the claim (and the
code's own comment "conservative: use earliest vs latest") prescribe the CAGR
from the earliest observation (25) to the latest, which is 3.0.  The two
disagree. -/
theorem C2_growth_bug :
    IsGrowthProxy PyVal.none [some 400, some 100, some 25] (PyVal.num 1) ∧
    ¬ IsGrowthProxy PyVal.none [some 400, some 100, some 25] (PyVal.num 3) ∧
    IsGrowthRevSpec [400, 100, 25] (PyVal.num 3) ∧
    PyVal.num (1 : ℚ) ≠ PyVal.num 3 := by
  have hl : (([some (400:ℚ), some 100, some 25].take 4).filterMap id) =
      [400, 100, 25] := rfl
  refine ⟨⟨PyVal.num 1, ?_, ?_⟩, ?_, ?_, by norm_num⟩
  · rw [hl]
    simp only [IsGrowthRev]
    norm_num [List.getD]
    simp only [IsCagr]
    rw [if_neg (by norm_num), if_neg (by norm_num), if_neg (by norm_num)]
    exact ⟨1, rfl, by norm_num, by norm_num⟩
  · simp [growth_pick, growth_filter, PyVal.isna, PyVal.le]
    rw [if_neg (by norm_num)]
  · rintro ⟨gr, hgr, heq⟩
    rw [hl] at hgr
    rcases gr with _ | _ | _ | _ | v <;>
      simp [growth_pick, growth_filter, PyVal.isna, PyVal.le] at heq
    split_ifs at heq
    rw [PyVal.num.injEq] at heq
    subst heq
    simp only [IsGrowthRev] at hgr
    norm_num [List.getD] at hgr
    simp only [IsCagr] at hgr
    rw [if_neg (by norm_num), if_neg (by norm_num), if_neg (by norm_num)]
      at hgr
    obtain ⟨v', hv', hpos, hpow⟩ := hgr
    rw [PyVal.num.injEq] at hv'
    subst hv'
    norm_num at hpow
  · simp only [IsGrowthRevSpec]
    norm_num [List.getD]
    simp only [IsCagr]
    rw [if_neg (by norm_num), if_neg (by norm_num), if_neg (by norm_num)]
    exact ⟨3, rfl, by norm_num, by norm_num⟩

theorem div_nan_left (x : PyVal) : PyVal.nan.div x = PyVal.nan := by
  cases x <;> rfl

theorem div_nan_right (x : PyVal) : x.div PyVal.nan = PyVal.nan := by
  cases x <;> rfl

theorem PEG_none_left (g : PyVal) : PEG PyVal.none g = PyVal.nan := by
  simp [PEG, PyVal.truthy]

theorem PEG_nan_left (g : PyVal) : PEG PyVal.nan g = PyVal.nan := by
  simp [PEG, PyVal.truthy, div_nan_left]

theorem PEG_none_right (pe : PyVal) : PEG pe PyVal.none = PyVal.nan := by
  simp [PEG, PyVal.truthy]

theorem PEG_nan_right (pe : PyVal) : PEG pe PyVal.nan = PyVal.nan := by
  simp [PEG, PyVal.truthy, PyVal.lt, div_nan_right]

/-- Claim C8: PEG is NaN unless the effective P/E is a (nonzero) number and
the filtered growth value is a positive number (infinite inputs, excluded by
hypothesis, do not occur: the P/E comes from provider fields or safe_div and
the growth proxy from the estimate/CAGR chain); when growth is a fraction
(< 1) the P/E is divided by growth*100, otherwise by growth directly; in
particular P/E 20 with growth 0.10 gives PEG 2, and dividend yield 0.02 gives
PEGY 20/12 = 5/3. -/
theorem C8_peg_pegy (pe g0 : PyVal) (hp1 : pe ≠ PyVal.pinf)
    (hp2 : pe ≠ PyVal.ninf) (hg1 : g0 ≠ PyVal.pinf) :
    ((¬ ∃ p : ℚ, pe = PyVal.num p) ∨
        (¬ ∃ q : ℚ, 0 < q ∧ growth_filter g0 = PyVal.num q) →
      PEG pe (growth_filter g0) = PyVal.nan) ∧
    (∀ p q : ℚ, p ≠ 0 → 0 < q → q < 1 →
      PEG (PyVal.num p) (PyVal.num q) = PyVal.num (p / (q * 100))) ∧
    (∀ p q : ℚ, p ≠ 0 → 1 ≤ q →
      PEG (PyVal.num p) (PyVal.num q) = PyVal.num (p / q)) ∧
    PEG (PyVal.num 20) (PyVal.num (1/10)) = PyVal.num 2 ∧
    PEGY (PyVal.num 20) (PyVal.num (1/10)) (PyVal.num (1/50)) =
      PyVal.num (5/3) := by
  have peg_frac : ∀ p q : ℚ, p ≠ 0 → 0 < q → q < 1 →
      PEG (PyVal.num p) (PyVal.num q) = PyVal.num (p / (q * 100)) := by
    intro p q hp hq hq1
    have hq0 : q ≠ 0 := ne_of_gt hq
    have hq100 : q * 100 ≠ 0 := by positivity
    simp [PEG, PyVal.truthy, PyVal.lt, PyVal.mul, PyVal.div, hp, hq0, hq1,
      hq100]
  refine ⟨?_, peg_frac, ?_, ?_, ?_⟩
  · intro h
    rcases h with hpe | hg
    · rcases pe with _ | _ | _ | _ | p
      · exact PEG_none_left _
      · exact PEG_nan_left _
      · exact absurd rfl hp1
      · exact absurd rfl hp2
      · exact absurd ⟨p, rfl⟩ hpe
    · have hgf : growth_filter g0 = PyVal.nan ∨ growth_filter g0 = PyVal.none := by
        rcases g0 with _ | _ | _ | _ | q
        · right; simp [growth_filter, PyVal.isna]
        · left; simp [growth_filter, PyVal.isna]
        · exact absurd rfl hg1
        · left; simp [growth_filter, PyVal.isna, PyVal.le]
        · by_cases hq : q ≤ 0
          · left; simp [growth_filter, PyVal.isna, PyVal.le, hq]
          · exact absurd ⟨q, by linarith,
              by simp [growth_filter, PyVal.isna, PyVal.le, hq]⟩ hg
      rcases hgf with hgf | hgf <;> rw [hgf]
      · exact PEG_nan_right _
      · exact PEG_none_right _
  · intro p q hp hq
    have hq0 : q ≠ 0 := by linarith
    have hq1 : ¬ (q < 1) := by linarith
    simp [PEG, PyVal.truthy, PyVal.lt, PyVal.div, hp, hq0, hq1]
  · have h := peg_frac 20 (1/10) (by norm_num) (by norm_num) (by norm_num)
    rwa [show (20:ℚ) / (1/10 * 100) = 2 by norm_num] at h
  · have h20 : (20:ℚ) ≠ 0 := by norm_num
    have h10 : (1/10 : ℚ) ≠ 0 := by norm_num
    have h50 : (1/50 : ℚ) ≠ 0 := by norm_num
    simp only [PEGY, PyVal.isna, div_pct, orZero, PyVal.truthy, PyVal.lt,
      PyVal.mul, PyVal.add, safe_div, PyVal.div]
    norm_num
    rw [if_neg (by simp), if_neg (by simp)]

/-- Claim C8 witness: the theorem applied at concrete inputs — an absent P/E
gives an undefined PEG, and the spec's scenario values come out as stated. -/
theorem C8_witness :
    PEG PyVal.none (growth_filter PyVal.none) = PyVal.nan ∧
    PEG (PyVal.num 20) (PyVal.num (1/10)) = PyVal.num 2 ∧
    PEGY (PyVal.num 20) (PyVal.num (1/10)) (PyVal.num (1/50)) =
      PyVal.num (5/3) := by
  have h := C8_peg_pegy PyVal.none PyVal.none (by simp) (by simp) (by simp)
  exact ⟨h.1 (Or.inl (by simp)), h.2.2.2.1, h.2.2.2.2⟩

theorem metaBefore_asymm {x y : Option ℚ} (h : metaBefore x y = true) :
    metaBefore y x = false := by
  cases x <;> cases y <;> simp_all [metaBefore]
  exact le_of_lt h

theorem metaBefore_negtrans {x y z : Option ℚ} (h1 : metaBefore x y = false)
    (h2 : metaBefore y z = false) : metaBefore x z = false := by
  cases x <;> cases y <;> cases z <;> simp_all [metaBefore]
  linarith

theorem insertRow_perm (r : OutRow) : ∀ l : List OutRow,
    (insertRow r l).Perm (r :: l)
  | [] => List.Perm.refl _
  | h :: t => by
    simp only [insertRow]
    split
    · exact ((insertRow_perm r t).cons h).trans (List.Perm.swap r h t)
    · exact List.Perm.refl _

theorem sort_by_meta_perm : ∀ l : List OutRow, (sort_by_meta l).Perm l
  | [] => List.Perm.refl _
  | r :: rest =>
    (insertRow_perm r (sort_by_meta rest)).trans
      ((sort_by_meta_perm rest).cons r)

theorem pairwise_insertRow (r : OutRow) : ∀ l : List OutRow,
    l.Pairwise (fun a b => metaBefore b.meta a.meta = false) →
    (insertRow r l).Pairwise (fun a b => metaBefore b.meta a.meta = false)
  | [], _ => by simp [insertRow]
  | h :: t, hp => by
    rw [List.pairwise_cons] at hp
    obtain ⟨h1, h2⟩ := hp
    simp only [insertRow]
    split
    case isTrue hc =>
      rw [List.pairwise_cons]
      refine ⟨?_, pairwise_insertRow r t h2⟩
      intro b hb
      rcases List.mem_cons.mp ((insertRow_perm r t).mem_iff.mp hb) with rfl | hb
      · exact metaBefore_asymm hc
      · exact h1 b hb
    case isFalse hc =>
      have hc' : metaBefore h.meta r.meta = false := by
        simpa using hc
      rw [List.pairwise_cons]
      refine ⟨?_, by rw [List.pairwise_cons]; exact ⟨h1, h2⟩⟩
      intro b hb
      rcases List.mem_cons.mp hb with rfl | hb
      · exact hc'
      · exact metaBefore_negtrans (h1 b hb) hc'

theorem filter_insertRow (r : OutRow) (m : Option ℚ) : ∀ l : List OutRow,
    (insertRow r l).filter (fun x => decide (x.meta = m)) =
      (r :: l).filter (fun x => decide (x.meta = m))
  | [] => rfl
  | h :: t => by
    simp only [insertRow]
    split
    case isTrue hc =>
      have hkey : ¬ (h.meta = m ∧ r.meta = m) := by
        rintro ⟨hh, hr⟩
        rw [hh, hr] at hc
        cases m with
        | none => simp [metaBefore] at hc
        | some a => simp [metaBefore] at hc
      by_cases hr : r.meta = m
      · have hh : ¬ h.meta = m := fun hh => hkey ⟨hh, hr⟩
        simp [List.filter_cons, hh, hr, filter_insertRow r m t]
      · by_cases hh : h.meta = m <;>
          simp [List.filter_cons, hh, hr, filter_insertRow r m t]
    case isFalse hc => rfl

/-- Claim C5 (amended): the sorted output is a permutation of the input
(every input ticker appears exactly once), it is ordered by meta-score
descending with undefined meta-scores last, and rows with equal meta-scores
keep their INPUT order (the sort is stable and the code applies no secondary
key) — they are not reordered by ticker. -/
theorem C5_sort_amended (l : List OutRow) (m : Option ℚ) :
    (sort_by_meta l).Perm l ∧
    (sort_by_meta l).Pairwise (fun a b => metaBefore b.meta a.meta = false) ∧
    (sort_by_meta l).filter (fun x => decide (x.meta = m)) =
      l.filter (fun x => decide (x.meta = m)) := by
  refine ⟨sort_by_meta_perm l, ?_, ?_⟩
  · induction l with
    | nil => simp [sort_by_meta]
    | cons r rest ih => exact pairwise_insertRow r _ ih
  · induction l with
    | nil => rfl
    | cons r rest ih =>
      rw [sort_by_meta, filter_insertRow, List.filter_cons, List.filter_cons,
        ih]

/-- Claim C5 counterexample: two rows with equal meta-score arriving in the
order BBB, AAA are output in that same order — not in ascending ticker order
(AAA < BBB would require AAA first). -/
theorem C5_counterexample :
    (sort_by_meta c5rows).map OutRow.ticker = ["BBB", "AAA"] ∧
    c5rows.map OutRow.meta = [some 50, some 50] ∧
    ("AAA" : String) ≠ "BBB" := by
  refine ⟨?_, rfl, by decide⟩
  norm_num [sort_by_meta, c5rows, insertRow, metaBefore]

theorem e9_pos : 0 < e9 := by norm_num [e9]

theorem foldl_min_le_init (xs : List ℚ) : ∀ x0 : ℚ, xs.foldl min x0 ≤ x0 := by
  induction xs with
  | nil => intro x0; exact le_refl _
  | cons x xs ih =>
    intro x0
    exact le_trans (ih (min x0 x)) (min_le_left _ _)

theorem foldl_min_le_mem {xs : List ℚ} {y : ℚ} (hy : y ∈ xs) :
    ∀ x0 : ℚ, xs.foldl min x0 ≤ y := by
  induction xs with
  | nil => cases hy
  | cons x xs ih =>
    intro x0
    rcases List.mem_cons.mp hy with rfl | hy'
    · exact le_trans (foldl_min_le_init xs (min x0 y)) (min_le_right _ _)
    · exact ih hy' (min x0 x)

theorem foldl_max_ge_init (xs : List ℚ) : ∀ x0 : ℚ, x0 ≤ xs.foldl max x0 := by
  induction xs with
  | nil => intro x0; exact le_refl _
  | cons x xs ih =>
    intro x0
    exact le_trans (le_max_left _ _) (ih (max x0 x))

theorem foldl_max_ge_mem {xs : List ℚ} {y : ℚ} (hy : y ∈ xs) :
    ∀ x0 : ℚ, y ≤ xs.foldl max x0 := by
  induction xs with
  | nil => cases hy
  | cons x xs ih =>
    intro x0
    rcases List.mem_cons.mp hy with rfl | hy'
    · exact le_trans (le_max_right _ _) (foldl_max_ge_init xs (max x0 y))
    · exact ih hy' (max x0 x)

theorem nanmin_le {c : Column} {m x : ℚ} (hm : nanmin c = some m)
    (hx : x ∈ c.filterMap id) : m ≤ x := by
  unfold nanmin at hm
  cases h : c.filterMap id with
  | nil => rw [h] at hm; cases hm
  | cons a as =>
    rw [h] at hm hx
    rw [Option.some.injEq] at hm
    subst hm
    rcases List.mem_cons.mp hx with rfl | hx'
    · exact foldl_min_le_init as x
    · exact foldl_min_le_mem hx' a

theorem nanmax_ge {c : Column} {M x : ℚ} (hM : nanmax c = some M)
    (hx : x ∈ c.filterMap id) : x ≤ M := by
  unfold nanmax at hM
  cases h : c.filterMap id with
  | nil => rw [h] at hM; cases hM
  | cons a as =>
    rw [h] at hM hx
    rw [Option.some.injEq] at hM
    subst hM
    rcases List.mem_cons.mp hx with rfl | hx'
    · exact foldl_max_ge_init as x
    · exact foldl_max_ge_mem hx' a

theorem entry_mem_filterMap {col : Column} {i : ℕ} {x : ℚ}
    (h : col[i]? = some (some x)) : x ∈ col.filterMap id := by
  rw [List.mem_filterMap]
  exact ⟨some x, List.getElem?_mem h, rfl⟩

/-- Every defined entry of a pos_clip output lies in the interval [0, 100]:
the rescaled value is 100 (x - min) / (max - min + 1e-9) with min <= x <= max
and a positive denominator. -/
theorem pos_clip_bound {col : Column} {i : ℕ} {v : ℚ}
    (h : (pos_clip col)[i]? = some (some v)) : 0 ≤ v ∧ v ≤ 100 := by
  unfold pos_clip at h
  cases h1 : nanmin col with
  | none =>
    rw [h1] at h
    rw [List.getElem?_map] at h
    rcases Option.map_eq_some'.mp h with ⟨x, _, hx⟩
    cases hx
  | some m =>
    cases h2 : nanmax col with
    | none =>
      rw [h1, h2] at h
      rw [List.getElem?_map] at h
      rcases Option.map_eq_some'.mp h with ⟨x, _, hx⟩
      cases hx
    | some M =>
      rw [h1, h2] at h
      rw [List.getElem?_map] at h
      rcases Option.map_eq_some'.mp h with ⟨x, hx, hmap⟩
      rcases Option.map_eq_some'.mp hmap with ⟨xv, hxv, hv⟩
      subst hxv
      have hmem : xv ∈ col.filterMap id := entry_mem_filterMap hx
      have hlo : m ≤ xv := nanmin_le h1 hmem
      have hhi : xv ≤ M := nanmax_ge h2 hmem
      have hden : 0 < M - m + e9 := by
        have := e9_pos
        linarith
      have he := e9_pos
      constructor
      · rw [← hv]
        exact div_nonneg (by linarith) (le_of_lt hden)
      · rw [← hv, div_le_iff₀ hden]
        linarith

theorem oadd_eq_some {x y : Option ℚ} {v : ℚ} (h : oadd x y = some v) :
    ∃ a b, x = some a ∧ y = some b ∧ v = a + b := by
  cases x with
  | none => cases h
  | some a =>
    cases y with
    | none => cases h
    | some b =>
      rw [oadd, Option.some.injEq] at h
      exact ⟨a, b, rfl, rfl, h.symm⟩

theorem osmul_eq_some {k : ℚ} {x : Option ℚ} {v : ℚ}
    (h : osmul k x = some v) : ∃ a, x = some a ∧ v = k * a := by
  cases x with
  | none => cases h
  | some a =>
    rw [osmul, Option.map_some', Option.some.injEq] at h
    exact ⟨a, rfl, h.symm⟩

theorem zip3With_getElem?_some {α β γ δ : Type} {f : α → β → γ → δ} :
    ∀ (as : List α) (bs : List β) (cs : List γ) (i : ℕ) (r : δ),
      (zip3With f as bs cs)[i]? = some r →
      ∃ x y z, as[i]? = some x ∧ bs[i]? = some y ∧ cs[i]? = some z ∧
        r = f x y z
  | a :: as, b :: bs, c :: cs, 0, r => by
    intro h
    rw [zip3With] at h
    simp only [List.getElem?_cons_zero, Option.some.injEq] at h ⊢
    exact ⟨a, b, c, rfl, rfl, rfl, h.symm⟩
  | a :: as, b :: bs, c :: cs, i + 1, r => by
    intro h
    rw [zip3With] at h
    simp only [List.getElem?_cons_succ] at h ⊢
    exact zip3With_getElem?_some as bs cs i r h
  | [], _, _, i, r => by intro h; simp [zip3With] at h
  | _ :: _, [], _, i, r => by intro h; simp [zip3With] at h
  | _ :: _, _ :: _, [], i, r => by intro h; simp [zip3With] at h

theorem cadd_eq_some {A B : Column} {i : ℕ} {r : Option ℚ}
    (h : (cadd A B)[i]? = some r) :
    ∃ x y, A[i]? = some x ∧ B[i]? = some y ∧ r = oadd x y := by
  rcases List.getElem?_zipWith_eq_some.mp h with ⟨x, y, hx, hy, hr⟩
  exact ⟨x, y, hx, hy, hr.symm⟩

theorem csmul_eq_some {k : ℚ} {A : Column} {i : ℕ} {r : Option ℚ}
    (h : (csmul k A)[i]? = some r) :
    ∃ x, A[i]? = some x ∧ r = osmul k x := by
  rw [csmul, List.getElem?_map] at h
  rcases Option.map_eq_some'.mp h with ⟨x, hx, hr⟩
  exact ⟨x, hx, hr.symm⟩

/-- A defined entry of the 0.9/0.1 IP blend of two pos_clip columns stays in
[0, 100]: where the IP composite is NaN the original (pos_clip) score is kept,
elsewhere the value is a convex combination of two values in [0, 100]. -/
theorem blend_bound {z rawS rawP : Column} {i : ℕ} {v : ℚ}
    (h : (blend z (pos_clip rawS) (pos_clip rawP))[i]? = some (some v)) :
    0 ≤ v ∧ v ≤ 100 := by
  rw [blend] at h
  obtain ⟨zx, sx, px, hz, hs, hp, hr⟩ :=
    zip3With_getElem?_some _ _ _ _ _ h
  cases zx with
  | none =>
    rw [blendRow] at hr
    rw [← hr] at hs
    exact pos_clip_bound hs
  | some zv =>
    rw [blendRow] at hr
    obtain ⟨a, b, ha, hb, hv⟩ := oadd_eq_some hr.symm
    obtain ⟨sv, hsv, hav⟩ := osmul_eq_some ha
    obtain ⟨pv, hpv, hbv⟩ := osmul_eq_some hb
    subst hsv hpv
    have hsb := pos_clip_bound hs
    have hpb := pos_clip_bound hp
    constructor
    · rw [hv, hav, hbv]; nlinarith [hsb.1, hpb.1]
    · rw [hv, hav, hbv]; nlinarith [hsb.2, hpb.2]

theorem csmul_entry_val {k : ℚ} {A : Column} {i : ℕ} {a : ℚ}
    (h : (csmul k A)[i]? = some (some a)) :
    ∃ w, A[i]? = some (some w) ∧ a = k * w := by
  obtain ⟨x, hx, hr⟩ := csmul_eq_some h
  obtain ⟨w, hw, ha⟩ := osmul_eq_some hr.symm
  subst hw
  exact ⟨w, hx, ha⟩

theorem cadd_entry_val {A B : Column} {i : ℕ} {vv : ℚ}
    (h : (cadd A B)[i]? = some (some vv)) :
    ∃ a b, A[i]? = some (some a) ∧ B[i]? = some (some b) ∧ vv = a + b := by
  obtain ⟨x, y, hx, hy, hr⟩ := cadd_eq_some h
  obtain ⟨a, b, hxa, hyb, hv⟩ := oadd_eq_some hr.symm
  subst hxa hyb
  exact ⟨a, b, hx, hy, hv⟩

/-- Claim C9: every defined sub-score entry (IP-blended or not) and every
defined meta-score entry lies in [0, 100] — pos_clip maps defined entries into
[0, 100], the 0.9/0.1 IP blend keeps the interval, and the meta-score weights
0.25 + 0.20 + 0.20 + 0.15 + 0.20 sum to 1, so a defined meta-score is a convex
combination of values in [0, 100]. -/
theorem C9_scores_in_range (d : ScreenData) (i : ℕ) (v : ℚ)
    (h : (buffett_score_ip d)[i]? = some (some v) ∨
         (lynch_score d)[i]? = some (some v) ∨
         (icahn_score d)[i]? = some (some v) ∨
         (soros_score d)[i]? = some (some v) ∨
         (simons_score_ip d)[i]? = some (some v) ∨
         (meta_score d)[i]? = some (some v)) :
    (0 ≤ v ∧ v ≤ 100) ∧
      (25/100 + 20/100 + 20/100 + 15/100 + 20/100 : ℚ) = 1 := by
  refine ⟨?_, by norm_num⟩
  rcases h with h | h | h | h | h | h
  · rw [buffett_score_ip, buffett_score] at h
    exact blend_bound h
  · rw [lynch_score] at h
    exact pos_clip_bound h
  · rw [icahn_score] at h
    exact pos_clip_bound h
  · rw [soros_score] at h
    exact pos_clip_bound h
  · rw [simons_score_ip, simons_score] at h
    exact blend_bound h
  · rw [meta_score] at h
    obtain ⟨aA, r1, hA, h1, hv⟩ := cadd_entry_val h
    obtain ⟨aL, r2, hL, h2, hv1⟩ := cadd_entry_val h1
    obtain ⟨aI, r3, hI, h3, hv2⟩ := cadd_entry_val h2
    obtain ⟨aS, aQ, hS, hQ, hv3⟩ := cadd_entry_val h3
    obtain ⟨bv, hbv, haA⟩ := csmul_entry_val hA
    obtain ⟨lv, hlv, haL⟩ := csmul_entry_val hL
    obtain ⟨iv, hiv, haI⟩ := csmul_entry_val hI
    obtain ⟨sv, hsv, haS⟩ := csmul_entry_val hS
    obtain ⟨qv, hqv, haQ⟩ := csmul_entry_val hQ
    have hBb : 0 ≤ bv ∧ bv ≤ 100 := by
      rw [buffett_score_ip, buffett_score] at hbv
      exact blend_bound hbv
    have hLb : 0 ≤ lv ∧ lv ≤ 100 := by
      rw [lynch_score] at hlv
      exact pos_clip_bound hlv
    have hIb : 0 ≤ iv ∧ iv ≤ 100 := by
      rw [icahn_score] at hiv
      exact pos_clip_bound hiv
    have hSb : 0 ≤ sv ∧ sv ≤ 100 := by
      rw [soros_score] at hsv
      exact pos_clip_bound hsv
    have hQb : 0 ≤ qv ∧ qv ≤ 100 := by
      rw [simons_score_ip, simons_score] at hqv
      exact blend_bound hqv
    constructor
    · rw [hv, hv1, hv2, hv3, haA, haL, haI, haS, haQ]
      linarith [hBb.1, hLb.1, hIb.1, hSb.1, hQb.1]
    · rw [hv, hv1, hv2, hv3, haA, haL, haI, haS, haQ]
      linarith [hBb.2, hLb.2, hIb.2, hSb.2, hQb.2]

theorem zscore_single (c : ℚ) : zscore 0 [some c] = [some 0] := by
  norm_num [zscore, nanmean, List.filterMap_cons, List.filterMap_nil, e9]

theorem wterm_single (w : ℚ) (b : Bool) (c : ℚ) :
    wterm ⟨w, b, 0, [some c]⟩ = [some 0] := by
  cases b <;> norm_num [wterm, csmul, cneg, zscore_single, osmul, oneg]

theorem cadd_single : cadd [some (0:ℚ)] [some (0:ℚ)] = [some 0] := by
  norm_num [cadd, oadd]

theorem csmul_single (k : ℚ) : csmul k [some (0:ℚ)] = [some 0] := by
  norm_num [csmul, osmul]

theorem pos_clip_single : pos_clip [some (0:ℚ)] = [some 0] := by
  norm_num [pos_clip, nanmin, nanmax, List.filterMap_cons, List.filterMap_nil,
    e9]

theorem blend_single :
    blend [some (0:ℚ)] [some (0:ℚ)] [some (0:ℚ)] = [some 0] := by
  norm_num [blend, zip3With, blendRow, oadd, osmul]

theorem buffett_raw_dC9 : buffett_raw dC9 = [some 0] := by
  simp only [buffett_raw, dC9, wsum, wterm_single, cadd_single]

theorem ip_z_dC9 : ip_z dC9 = [some 0] := by
  simp only [ip_z, dC9, wsum, wterm_single, cadd_single]

theorem lynch_raw_dC9 : lynch_raw dC9 = [some 0] := by
  simp only [lynch_raw, dC9, inv_PEG, inv_PEGY, inv_col, List.map,
    Option.map_some', wsum, wterm_single, cadd_single]

theorem icahn_raw_dC9 : icahn_raw dC9 = [some 0] := by
  simp only [icahn_raw, dC9, inv_p_to_fcf, inv_col, List.map,
    Option.map_some', wsum, wterm_single, cadd_single]

theorem soros_raw_dC9 : soros_raw dC9 = [some 0] := by
  simp only [soros_raw, dC9, inv_p_to_fcf, inv_col, List.map,
    Option.map_some', wsum, wterm_single, cadd_single]

theorem simons_raw_dC9 : simons_raw dC9 = [some 0] := by
  simp only [simons_raw, dC9, wsum, wterm_single, cadd_single]

theorem meta_score_dC9 : meta_score dC9 = [some 0] := by
  simp only [meta_score, buffett_score_ip, buffett_score, simons_score_ip,
    simons_score, lynch_score, icahn_score, soros_score, buffett_raw_dC9,
    ip_z_dC9, lynch_raw_dC9, icahn_raw_dC9, soros_raw_dC9, simons_raw_dC9,
    pos_clip_single, blend_single, csmul_single, cadd_single]

/-- Claim C9 witness: on the one-ticker universe where every metric is
defined, the meta-score is defined (it is 0) and the theorem places it in
[0, 100]. -/
theorem C9_witness :
    (meta_score dC9)[0]? = some (some (0:ℚ)) ∧ (0:ℚ) ≤ 0 ∧ (0:ℚ) ≤ 100 := by
  have hmeta : (meta_score dC9)[0]? = some (some (0:ℚ)) := by
    rw [meta_score_dC9]
    rfl
  have hres := C9_scores_in_range dC9 0 0
    (Or.inr (Or.inr (Or.inr (Or.inr (Or.inr hmeta)))))
  exact ⟨hmeta, hres.1.1, hres.1.2⟩

theorem nanmean_eq_none_iff (col : Column) :
    nanmean col = Option.none ↔ col.filterMap id = [] := by
  cases h : col.filterMap id with
  | nil => simp [nanmean, h]
  | cons x xs => simp [nanmean, h]

theorem zscore_length (σ : ℚ) (col : Column) :
    (zscore σ col).length = col.length := by
  unfold zscore
  cases nanmean col <;> simp

theorem wterm_length (t : WTerm) : (wterm t).length = t.col.length := by
  rw [wterm]
  cases t.flipSign <;> simp [csmul, cneg, zscore_length]

theorem map_entry_none_iff {f : Option ℚ → Option ℚ}
    (hf : ∀ x, f x = Option.none ↔ x = Option.none) (col : Column) (i : ℕ)
    (hi : i < col.length) :
    (col.map f)[i]? = some Option.none ↔ col[i]? = some Option.none := by
  rw [List.getElem?_map, List.getElem?_eq_getElem hi]
  simp [hf]

theorem zscore_none_iff (σ : ℚ) (col : Column) (i : ℕ) (hi : i < col.length) :
    (zscore σ col)[i]? = some Option.none ↔ col[i]? = some Option.none := by
  cases hm : nanmean col with
  | none =>
    have hnil : col.filterMap id = [] := (nanmean_eq_none_iff col).mp hm
    have hcol : col[i] = Option.none := by
      cases hc : col[i] with
      | none => rfl
      | some v =>
        have hmem : v ∈ col.filterMap id :=
          List.mem_filterMap.mpr ⟨some v, by rw [← hc]; exact List.getElem_mem hi, rfl⟩
        rw [hnil] at hmem
        cases hmem
    simp only [zscore, hm]
    rw [List.getElem?_map, List.getElem?_eq_getElem hi, hcol]
    simp
  | some μ =>
    simp only [zscore, hm]
    exact map_entry_none_iff (by intro x; cases x <;> simp) col i hi

theorem wterm_none_iff (t : WTerm) (i : ℕ) (hi : i < t.col.length) :
    (wterm t)[i]? = some Option.none ↔ t.col[i]? = some Option.none := by
  have hiz : i < (zscore t.sigma t.col).length := by
    rw [zscore_length]; exact hi
  have hz := zscore_none_iff t.sigma t.col i hi
  rw [wterm]
  cases hb : t.flipSign
  · simp only [Bool.false_eq_true, if_false]
    rw [csmul]
    exact (map_entry_none_iff (by intro x; cases x <;> simp [osmul])
      (zscore t.sigma t.col) i hiz).trans hz
  · simp only [if_true]
    rw [csmul, cneg]
    have hin : i < ((zscore t.sigma t.col).map oneg).length := by
      simp [hiz]
    exact ((map_entry_none_iff (by intro x; cases x <;> simp [osmul])
        ((zscore t.sigma t.col).map oneg) i hin).trans
      ((map_entry_none_iff (by intro x; cases x <;> simp [oneg])
        (zscore t.sigma t.col) i hiz).trans hz))

theorem oadd_none_iff (x y : Option ℚ) :
    oadd x y = Option.none ↔ x = Option.none ∨ y = Option.none := by
  cases x <;> cases y <;> simp [oadd]

theorem wsum_length : ∀ (ts : List WTerm) (n : ℕ), ts ≠ [] →
    (∀ t ∈ ts, t.col.length = n) → (wsum ts).length = n
  | [], _, h, _ => absurd rfl h
  | [t], n, _, hall => by
    rw [show wsum [t] = wterm t from rfl, wterm_length]
    exact hall t (List.mem_singleton_self t)
  | t1 :: t2 :: ts, n, _, hall => by
    rw [show wsum (t1 :: t2 :: ts) = cadd (wterm t1) (wsum (t2 :: ts))
      from rfl]
    rw [cadd, List.length_zipWith, wterm_length, hall t1 (by simp),
      wsum_length (t2 :: ts) n (by simp)
        (fun t ht => hall t (List.mem_cons_of_mem _ ht))]
    exact min_self n

theorem wsum_none_iff : ∀ (ts : List WTerm) (n i : ℕ), ts ≠ [] →
    (∀ t ∈ ts, t.col.length = n) → i < n →
    ((wsum ts)[i]? = some Option.none ↔
      ∃ t ∈ ts, t.col[i]? = some Option.none)
  | [], _, _, h, _, _ => absurd rfl h
  | [t], n, i, _, hall, hi => by
    rw [show wsum [t] = wterm t from rfl]
    rw [wterm_none_iff t i (by rw [hall t (List.mem_singleton_self t)]; exact hi)]
    simp
  | t1 :: t2 :: ts, n, i, _, hall, hi => by
    have hall' : ∀ t ∈ t2 :: ts, t.col.length = n :=
      fun t ht => hall t (List.mem_cons_of_mem _ ht)
    have hiA : i < (wterm t1).length := by
      rw [wterm_length, hall t1 (by simp)]; exact hi
    have hiB : i < (wsum (t2 :: ts)).length := by
      rw [wsum_length (t2 :: ts) n (by simp) hall']; exact hi
    have ha : (wterm t1)[i]? = some (wterm t1)[i] :=
      List.getElem?_eq_getElem hiA
    have hbb : (wsum (t2 :: ts))[i]? = some (wsum (t2 :: ts))[i] :=
      List.getElem?_eq_getElem hiB
    have hc : (cadd (wterm t1) (wsum (t2 :: ts)))[i]? =
        some (oadd (wterm t1)[i] (wsum (t2 :: ts))[i]) :=
      List.getElem?_zipWith_eq_some.mpr ⟨_, _, ha, hbb, rfl⟩
    rw [show wsum (t1 :: t2 :: ts) = cadd (wterm t1) (wsum (t2 :: ts))
      from rfl]
    rw [hc, Option.some.injEq, oadd_none_iff]
    have hA : (wterm t1)[i] = Option.none ↔ t1.col[i]? = some Option.none := by
      rw [← wterm_none_iff t1 i (by rw [hall t1 (by simp)]; exact hi), ha]
      simp
    have hB : (wsum (t2 :: ts))[i] = Option.none ↔
        ∃ t ∈ t2 :: ts, t.col[i]? = some Option.none := by
      rw [← wsum_none_iff (t2 :: ts) n i (by simp) hall' hi, hbb]
      simp
    rw [hA, hB]
    simp [List.exists_mem_cons_iff]

theorem inv_col_length (col : Column) : (inv_col col).length = col.length := by
  simp [inv_col]

theorem inv_col_none_iff (col : Column) (i : ℕ) (hi : i < col.length) :
    (inv_col col)[i]? = some Option.none ↔ col[i]? = some Option.none := by
  rw [inv_col]
  exact map_entry_none_iff (by intro x; cases x <;> simp) col i hi

/-- Claim C1 (amended): in each of the five sub-score weighted sums, pandas
series addition propagates NaN: a row's weighted sum is undefined as soon as
ANY component is undefined for that row — undefined components are not
omitted, and the sum is defined exactly when every component is defined. -/
theorem C1_weighted_sums_amended (d : ScreenData) (n i : ℕ)
    (hlen : SameLen d n) (hi : i < n) :
    ((buffett_raw d)[i]? = some Option.none ↔
      (d.roic_est[i]? = some Option.none ∨
       d.fcf_margin[i]? = some Option.none ∨
       d.fcf_yield[i]? = some Option.none ∨
       d.ebit_margin[i]? = some Option.none ∨
       d.net_debt[i]? = some Option.none ∨
       d.interest_coverage[i]? = some Option.none)) ∧
    ((lynch_raw d)[i]? = some Option.none ↔
      (d.PEG[i]? = some Option.none ∨ d.PEGY[i]? = some Option.none ∨
       d.growth_proxy[i]? = some Option.none ∨
       d.net_debt[i]? = some Option.none)) ∧
    ((icahn_raw d)[i]? = some Option.none ↔
      (d.cash_to_mcap[i]? = some Option.none ∨
       d.p_to_fcf[i]? = some Option.none ∨
       d.shares_chg_3y[i]? = some Option.none ∨
       d.net_debt[i]? = some Option.none)) ∧
    ((soros_raw d)[i]? = some Option.none ↔
      (d.p_to_fcf[i]? = some Option.none ∨
       d.m_sensitivity[i]? = some Option.none ∨
       d.interest_coverage[i]? = some Option.none)) ∧
    ((simons_raw d)[i]? = some Option.none ↔
      (d.weekly_ac[i]? = some Option.none ∨
       d.vol_clust[i]? = some Option.none ∨
       d.ret_pred[i]? = some Option.none)) := by
  obtain ⟨hL1, hL2, hL3, hL4, hL5, hL6, hL7, hL8, hL9, hL10, hL11, hL12,
    hL13, hL14, hL15, hL16, hL17, hL18, hL19⟩ := hlen
  have hiPEG : i < d.PEG.length := by rw [hL7]; exact hi
  have hiPEGY : i < d.PEGY.length := by rw [hL8]; exact hi
  have hiP2F : i < d.p_to_fcf.length := by rw [hL11]; exact hi
  have hallB : ∀ t ∈ [(⟨35/100, false, d.s_roic_est, d.roic_est⟩ : WTerm),
      ⟨20/100, false, d.s_fcf_margin, d.fcf_margin⟩,
      ⟨15/100, false, d.s_fcf_yield, d.fcf_yield⟩,
      ⟨15/100, false, d.s_ebit_margin, d.ebit_margin⟩,
      ⟨10/100, true, d.s_net_debt, d.net_debt⟩,
      ⟨5/100, false, d.s_interest_coverage, d.interest_coverage⟩],
      t.col.length = n := by
    intro t ht
    simp only [List.mem_cons, List.not_mem_nil, or_false] at ht
    rcases ht with rfl | rfl | rfl | rfl | rfl | rfl
    exacts [hL1, hL2, hL3, hL4, hL5, hL6]
  have hallL : ∀ t ∈ [(⟨35/100, false, d.s_inv_PEG, inv_PEG d⟩ : WTerm),
      ⟨25/100, false, d.s_inv_PEGY, inv_PEGY d⟩,
      ⟨25/100, false, d.s_growth_proxy, d.growth_proxy⟩,
      ⟨15/100, true, d.s_net_debt, d.net_debt⟩], t.col.length = n := by
    intro t ht
    simp only [List.mem_cons, List.not_mem_nil, or_false] at ht
    rcases ht with rfl | rfl | rfl | rfl
    · rw [inv_PEG, inv_col_length]; exact hL7
    · rw [inv_PEGY, inv_col_length]; exact hL8
    · exact hL9
    · exact hL5
  have hallI : ∀ t ∈ [(⟨35/100, false, d.s_cash_to_mcap, d.cash_to_mcap⟩ : WTerm),
      ⟨35/100, false, d.s_inv_p_to_fcf, inv_p_to_fcf d⟩,
      ⟨20/100, true, d.s_shares_chg_3y, d.shares_chg_3y⟩,
      ⟨10/100, true, d.s_net_debt, d.net_debt⟩], t.col.length = n := by
    intro t ht
    simp only [List.mem_cons, List.not_mem_nil, or_false] at ht
    rcases ht with rfl | rfl | rfl | rfl
    · exact hL10
    · rw [inv_p_to_fcf, inv_col_length]; exact hL11
    · exact hL12
    · exact hL5
  have hallS : ∀ t ∈ [(⟨50/100, false, d.s_inv_p_to_fcf, inv_p_to_fcf d⟩ : WTerm),
      ⟨30/100, false, d.s_m_sensitivity, d.m_sensitivity⟩,
      ⟨20/100, false, d.s_interest_coverage, d.interest_coverage⟩],
      t.col.length = n := by
    intro t ht
    simp only [List.mem_cons, List.not_mem_nil, or_false] at ht
    rcases ht with rfl | rfl | rfl
    · rw [inv_p_to_fcf, inv_col_length]; exact hL11
    · exact hL13
    · exact hL6
  have hallQ : ∀ t ∈ [(⟨34/100, false, d.s_weekly_ac, d.weekly_ac⟩ : WTerm),
      ⟨33/100, false, d.s_vol_clust, d.vol_clust⟩,
      ⟨33/100, false, d.s_ret_pred, d.ret_pred⟩], t.col.length = n := by
    intro t ht
    simp only [List.mem_cons, List.not_mem_nil, or_false] at ht
    rcases ht with rfl | rfl | rfl
    exacts [hL14, hL15, hL16]
  refine ⟨?_, ?_, ?_, ?_, ?_⟩
  · rw [buffett_raw, wsum_none_iff _ n i (by simp) hallB hi]
    simp [List.exists_mem_cons_iff]
  · rw [lynch_raw, wsum_none_iff _ n i (by simp) hallL hi]
    simp only [List.exists_mem_cons_iff, List.not_mem_nil, false_and,
      exists_false, or_false]
    rw [inv_PEG, inv_col_none_iff d.PEG i hiPEG,
      inv_PEGY, inv_col_none_iff d.PEGY i hiPEGY]
  · rw [icahn_raw, wsum_none_iff _ n i (by simp) hallI hi]
    simp only [List.exists_mem_cons_iff, List.not_mem_nil, false_and,
      exists_false, or_false]
    rw [inv_p_to_fcf, inv_col_none_iff d.p_to_fcf i hiP2F]
  · rw [soros_raw, wsum_none_iff _ n i (by simp) hallS hi]
    simp only [List.exists_mem_cons_iff, List.not_mem_nil, false_and,
      exists_false, or_false]
    rw [inv_p_to_fcf, inv_col_none_iff d.p_to_fcf i hiP2F]
  · rw [simons_raw, wsum_none_iff _ n i (by simp) hallQ hi]
    simp [List.exists_mem_cons_iff]

/-- Claim C1 counterexample: in universe dC1 row 0, the roic_est component
(and four others) are defined and only fcf_margin is NaN — not ALL components
are undefined — yet buffett_raw for that row is NaN.  The Nanstd conjuncts
certify that the stored standard deviations are the true np.nanstd values of
the six Buffett component columns, so the weighted sum is the code's. -/
theorem C1_counterexample :
    (buffett_raw dC1)[0]? = some Option.none ∧
    dC1.roic_est[0]? = some (some 1) ∧
    Nanstd dC1.roic_est dC1.s_roic_est ∧
    Nanstd dC1.fcf_margin dC1.s_fcf_margin ∧
    Nanstd dC1.fcf_yield dC1.s_fcf_yield ∧
    Nanstd dC1.ebit_margin dC1.s_ebit_margin ∧
    Nanstd dC1.net_debt dC1.s_net_debt ∧
    Nanstd dC1.interest_coverage dC1.s_interest_coverage := by
  have hvar13 : Nanstd [some (1:ℚ), some 3] 1 := by
    constructor
    · norm_num
    · norm_num [nanvar, nanmean, List.filterMap_cons, List.filterMap_nil]
  have hvar5 : Nanstd [Option.none, some (5:ℚ)] 0 := by
    constructor
    · norm_num
    · norm_num [nanvar, nanmean, List.filterMap_cons, List.filterMap_nil]
  refine ⟨?_, rfl, hvar13, hvar5, hvar13, hvar13, hvar13, hvar13⟩
  rw [buffett_raw]
  refine (wsum_none_iff _ 2 0 (by simp) ?_ (by norm_num)).mpr
    ⟨⟨20/100, false, dC1.s_fcf_margin, dC1.fcf_margin⟩, by simp, rfl⟩
  intro t ht
  simp only [List.mem_cons, List.not_mem_nil, or_false] at ht
  rcases ht with rfl | rfl | rfl | rfl | rfl | rfl <;> rfl

/-- Claim C1 witness: the amended theorem applied to the concrete universe
dC1 (all columns have length 2) at row 0. -/
theorem C1_witness :
    SameLen dC1 2 ∧ (0:ℕ) < 2 ∧
    ((lynch_raw dC1)[0]? = some Option.none ↔
      (dC1.PEG[0]? = some Option.none ∨ dC1.PEGY[0]? = some Option.none ∨
       dC1.growth_proxy[0]? = some Option.none ∨
       dC1.net_debt[0]? = some Option.none)) := by
  have hsl : SameLen dC1 2 :=
    ⟨rfl, rfl, rfl, rfl, rfl, rfl, rfl, rfl, rfl, rfl, rfl, rfl, rfl, rfl,
      rfl, rfl, rfl, rfl, rfl⟩
  exact ⟨hsl, by norm_num,
    (C1_weighted_sums_amended dC1 2 0 hsl (by norm_num)).2.1⟩
